import Mathlib

/-!
# Verification of the UAsmsDashboard version-catalog engine

Shallow embedding of the `UpdateManager` component (both the binary-upload
variant and the link variant) of the UAsmsDashboard repository, together with
the Firestore document-store operations it invokes (`setDoc`, `updateDoc`,
`onSnapshot` with `orderBy("versionCode", "desc")`).

The JavaScript form state holds every field as a string; numeric behaviour
goes through JS coercions (`ToNumber`, `parseInt`, `parseFloat`).  These are
modelled exactly on decimal numerals, the value space of the
`<input type="number">` fields that feed them: a string is trimmed, an
optional sign is read, then a run of digits with an optional fractional part.
`none` plays the role of JS `NaN` (every comparison with it is false and
`===` on it is false).  JS numbers are modelled as exact rationals.
-/

namespace UAsms

/-- JS whitespace characters relevant to `String.prototype.trim`. -/
def isWS (c : Char) : Bool := c = ' ' ∨ c = '\t' ∨ c = '\n' ∨ c = '\r'

/-- Trim whitespace from both ends of a character list. -/
def trimChars (cs : List Char) : List Char :=
  ((cs.dropWhile isWS).reverse.dropWhile isWS).reverse

/-- Embedding of JS `s.trim()`. -/
def jsTrim (s : String) : String := ⟨trimChars s.data⟩

/-- Numeric value of a digit run (caller guarantees the characters are digits). -/
def digitsVal (cs : List Char) : Nat :=
  cs.foldl (fun n c => 10 * n + (c.toNat - 48)) 0

/-- Longest decimal-numeral prefix of a character list: a digit run with an
optional `.`-separated fractional part.  Returns the value and the unconsumed
remainder; `none` when no digits are present at all. -/
def numLead (cs : List Char) : Option (ℚ × List Char) :=
  let intPart := cs.takeWhile Char.isDigit
  let rest := cs.drop intPart.length
  match rest with
  | '.' :: rest2 =>
      let fracPart := rest2.takeWhile Char.isDigit
      if intPart = [] ∧ fracPart = [] then none
      else some (mkRat (digitsVal intPart * 10 ^ fracPart.length + digitsVal fracPart)
                   (10 ^ fracPart.length),
                 rest2.drop fracPart.length)
  | _ => if intPart = [] then none else some (mkRat (digitsVal intPart) 1, rest)

/-- Optional sign followed by the longest numeral prefix; shared front end of
`parseFloat` and string `ToNumber`. -/
def signedNumLead (cs : List Char) : Option (ℚ × List Char) :=
  match cs with
  | '-' :: rest => (numLead rest).map (fun p => (-p.1, p.2))
  | '+' :: rest => numLead rest
  | _ => numLead cs

/-- Embedding of JS `parseFloat` restricted to plain decimal numerals (no
exponent or hex forms, which the number inputs feeding it never produce):
trims, reads an optional sign and the longest numeral prefix; `none` = NaN. -/
def jsParseFloat (s : String) : Option ℚ :=
  (signedNumLead (trimChars s.data)).map (fun p => p.1)

/-- Embedding of JS `ToNumber` on strings, restricted to plain decimal
numerals: the empty (or all-whitespace) string coerces to `0`; otherwise the
whole trimmed string must be a signed numeral; `none` = NaN. -/
def jsToNumber (s : String) : Option ℚ :=
  match trimChars s.data with
  | [] => some 0
  | cs => match signedNumLead cs with
      | some (q, []) => some q
      | _ => none

/-- Embedding of JS `parseInt` (decimal): trims, reads an optional sign and
the leading digit run, ignoring everything after it; `none` = NaN. -/
def jsParseInt (s : String) : Option Int :=
  let go (sign : Int) (cs : List Char) : Option Int :=
    let ds := cs.takeWhile Char.isDigit
    if ds = [] then none else some (sign * (digitsVal ds : Int))
  match trimChars s.data with
  | '-' :: rest => go (-1) rest
  | '+' :: rest => go 1 rest
  | cs => go 1 cs

/-- Embedding of the JS comparison `s <= 0` for a string `s`: `ToNumber`
coercion, with any comparison against NaN yielding `false`. -/
def jsLe0 (s : String) : Bool :=
  match jsToNumber s with
  | some q => decide (q ≤ 0)
  | none => false

/-- Embedding of JS `===` between two numbers, `none` standing for NaN
(`NaN === x` is false for every `x`). -/
def jsEqNum : Option Int → Option Int → Bool
  | some a, some b => a == b
  | _, _ => false

/-- Embedding of the success of `new URL(s)`: the trimmed string must start
with a scheme — a letter followed by letters, digits, `+`, `-` or `.` — and a
colon, the shape every absolute URL shares.  Approximates the WHATWG parser
on the URL-shaped strings this dashboard handles. -/
def jsURLValid (s : String) : Bool :=
  match trimChars s.data with
  | c :: rest =>
      let schemeTail := rest.takeWhile (fun d => d.isAlpha || d.isDigit || d = '+' || d = '-' || d = '.')
      c.isAlpha && ((rest.drop schemeTail.length).head? == some ':')
  | [] => false

/-- A catalog `Version` record, the exact field set of the `setDoc` payloads
in `handleUpload` / `handleSubmit`.  `versionCode` is `Option Int`
(`none` = the NaN `parseInt` can produce); `fileSize` is `Option ℚ`
(`none` = the NaN `parseFloat` can produce); `uploadedAt` is the admission
timestamp (`new Date()`) as an abstract tick. -/
structure Version where
  versionName : String
  versionCode : Option Int
  downloadUrl : String
  changelog : String
  fileSize : Option ℚ
  uploadedAt : Nat
  uploadedBy : String
  isCritical : Bool
  isActive : Bool
  downloadCount : Nat
deriving Repr, DecidableEq

/-- The Firestore collection `app_versions`: documents as (docId, record)
pairs, in arrival order; document ids are unique. -/
abbrev Store : Type := List (String × Version)

/-- Look a document up by id. -/
def findDoc (s : Store) (docId : String) : Option Version :=
  (s.find? (fun p => p.1 == docId)).map (fun p => p.2)

/-- Firestore `setDoc`: unconditional insert-or-replace at the given id. -/
def setDoc (s : Store) (docId : String) (v : Version) : Store :=
  if s.any (fun p => p.1 == docId) then
    s.map (fun p => if p.1 == docId then (p.1, v) else p)
  else
    s ++ [(docId, v)]

/-- Firestore `updateDoc` on the `isActive` field: fails (a rejected promise)
when no document with the id exists, otherwise rewrites only that field. -/
def updateDocIsActive (s : Store) (docId : String) (b : Bool) : Except Unit Store :=
  if s.any (fun p => p.1 == docId) then
    .ok (s.map
      (fun p => if p.1 == docId then (p.1, { p.2 with isActive := b }) else p))
  else
    .error ()

/-- Firestore's ordering on `versionCode` values: NaN (`none`) sorts before
every number, numbers by value. -/
def vcLe : Option Int → Option Int → Bool
  | none, _ => true
  | some _, none => false
  | some a, some b => a ≤ b

/-- Strict version of `vcLe`: `a` strictly precedes `b`. -/
def vcLt (a b : Option Int) : Bool := vcLe a b && !(a == b)

/-- The comparator of the `orderBy("versionCode", "desc")` query: a document
comes no later than another when its `versionCode` is no smaller. -/
def snapLE (p q : String × Version) : Prop :=
  vcLe q.2.versionCode p.2.versionCode = true

instance : DecidableRel snapLE := fun _ _ => decEq _ _

theorem vcLe_total (a b : Option Int) : vcLe a b = true ∨ vcLe b a = true := by
  unfold vcLe
  rcases b with _ | m <;> rcases a with _ | n <;> simp
  omega

theorem vcLe_trans {a b c : Option Int} (hab : vcLe a b = true) (hbc : vcLe b c = true) :
    vcLe a c = true := by
  unfold vcLe at *
  rcases c with _ | k <;> rcases b with _ | m <;> rcases a with _ | n <;> simp_all
  omega

instance : IsTotal (String × Version) snapLE :=
  ⟨fun a b => vcLe_total b.2.versionCode a.2.versionCode⟩

instance : IsTrans (String × Version) snapLE :=
  ⟨fun _ _ _ hab hbc => vcLe_trans hbc hab⟩

/-- The document list delivered by the `onSnapshot` listener of the
`query(collection(db, "app_versions"), orderBy("versionCode", "desc"))`:
the store's documents ordered descending by `versionCode`.  The client maps
each doc to `{ id: d.id, ...d.data() }`, i.e. keeps the (id, record) pair. -/
def snapshotQuery (s : Store) : List (String × Version) :=
  List.insertionSort snapLE s

/-- The `newErrors` object built by `validateForm` in the binary-upload
variant: one optional message per field it can assign. -/
structure FormErrorsB where
  file : Option String := none
  versionName : Option String := none
  versionCode : Option String := none
  changelog : Option String := none
deriving Repr, DecidableEq

/-- `Object.keys(newErrors).length` for the binary-variant error object:
keys exist exactly for the fields that were assigned. -/
def errCountB (e : FormErrorsB) : Nat :=
  (if e.file.isSome then 1 else 0) + (if e.versionName.isSome then 1 else 0) +
  (if e.versionCode.isSome then 1 else 0) + (if e.changelog.isSome then 1 else 0)

/-- The form state of the binary-upload variant that `validateForm` and
`handleUpload` read (file input, text inputs as raw strings). -/
structure BinDraft where
  selectedFile : Option (String × Nat)
  versionName : String
  versionCode : String
  changelog : String
  isCritical : Bool
deriving Repr, DecidableEq

/-- `validateForm` of the binary-upload variant, check for check:
missing file; empty trimmed versionName; `!versionCode || versionCode <= 0`
(JS coercion); empty trimmed changelog; then the duplicate check
`versions.some(v => v.versionCode === parseInt(versionCode))`, which
overwrites the `versionCode` entry. -/
def validateFormB (d : BinDraft) (versions : List (String × Version)) : FormErrorsB :=
  let e0 : FormErrorsB := {}
  let e1 := if d.selectedFile.isNone then { e0 with file := some "Please select an APK file" } else e0
  let e2 := if jsTrim d.versionName = "" then
      { e1 with versionName := some "Version name is required" } else e1
  let e3 := if d.versionCode = "" || jsLe0 d.versionCode then
      { e2 with versionCode := some "Valid version code is required" } else e2
  let e4 := if jsTrim d.changelog = "" then
      { e3 with changelog := some "Changelog is required" } else e3
  if versions.any (fun v => jsEqNum v.2.versionCode (jsParseInt d.versionCode)) then
    { e4 with versionCode := some "Version code already exists" }
  else e4

/-- The `setDoc` payload built by the completion handler of `handleUpload`
from the draft, the selected file, the resolved download URL and the
admission time (`new Date()`). -/
def uploadRecord (d : BinDraft) (f : String × Nat) (resolvedUrl : String) (now : Nat) :
    Version :=
  { versionName := jsTrim d.versionName
    versionCode := jsParseInt d.versionCode
    downloadUrl := resolvedUrl
    changelog := jsTrim d.changelog
    fileSize := some (f.2 : ℚ)
    uploadedAt := now
    uploadedBy := "admin"
    isCritical := d.isCritical
    isActive := true
    downloadCount := 0 }

/-- `handleUpload`: validate against the client's `versions` snapshot; on
success the resumable upload runs (its resolved download URL and the
admission time enter as parameters) and the completion handler commits the
record with `setDoc` under `version_${versionCode}`.  Returns the resulting
store and the `errors` state. -/
def handleUpload (d : BinDraft) (versions : List (String × Version)) (store : Store)
    (resolvedUrl : String) (now : Nat) : Store × FormErrorsB :=
  let errs := validateFormB d versions
  if errCountB errs = 0 then
    match d.selectedFile with
    | some f => (setDoc store ("version_" ++ d.versionCode) (uploadRecord d f resolvedUrl now), errs)
    | none => (store, errs)
  else (store, errs)

/-- The `newErrors` object built by `validateForm` in the link variant. -/
structure FormErrorsL where
  downloadUrl : Option String := none
  versionName : Option String := none
  versionCode : Option String := none
  changelog : Option String := none
  fileSize : Option String := none
deriving Repr, DecidableEq

/-- `Object.keys(newErrors).length` for the link-variant error object. -/
def errCountL (e : FormErrorsL) : Nat :=
  (if e.downloadUrl.isSome then 1 else 0) + (if e.versionName.isSome then 1 else 0) +
  (if e.versionCode.isSome then 1 else 0) + (if e.changelog.isSome then 1 else 0) +
  (if e.fileSize.isSome then 1 else 0)

/-- The form state of the link variant (all inputs are strings;
`fileSize` is entered in MB). -/
structure LinkDraft where
  downloadUrl : String
  versionName : String
  versionCode : String
  changelog : String
  fileSize : String
  isCritical : Bool
deriving Repr, DecidableEq

/-- `validateForm` of the link variant: URL required and must parse with
`new URL`; versionName, versionCode, changelog as in the binary variant;
`!fileSize || fileSize <= 0`; then the duplicate check overwriting the
`versionCode` entry. -/
def validateFormL (d : LinkDraft) (versions : List (String × Version)) : FormErrorsL :=
  let e0 : FormErrorsL := {}
  let e1 := if jsTrim d.downloadUrl = "" then
      { e0 with downloadUrl := some "Download URL is required" }
    else if !jsURLValid d.downloadUrl then
      { e0 with downloadUrl := some "Invalid URL format" }
    else e0
  let e2 := if jsTrim d.versionName = "" then
      { e1 with versionName := some "Version name is required" } else e1
  let e3 := if d.versionCode = "" || jsLe0 d.versionCode then
      { e2 with versionCode := some "Valid version code is required" } else e2
  let e4 := if jsTrim d.changelog = "" then
      { e3 with changelog := some "Changelog is required" } else e3
  let e5 := if d.fileSize = "" || jsLe0 d.fileSize then
      { e4 with fileSize := some "File size is required" } else e4
  if versions.any (fun v => jsEqNum v.2.versionCode (jsParseInt d.versionCode)) then
    { e5 with versionCode := some "Version code already exists" }
  else e5

/-- The `setDoc` payload built by `handleSubmit` from the draft and the
admission time; the entered MB size is converted by
`parseFloat(fileSize) * 1024 * 1024` (NaN propagates). -/
def submitRecord (d : LinkDraft) (now : Nat) : Version :=
  { versionName := jsTrim d.versionName
    versionCode := jsParseInt d.versionCode
    downloadUrl := jsTrim d.downloadUrl
    changelog := jsTrim d.changelog
    fileSize := (jsParseFloat d.fileSize).map (fun q => q * 1024 * 1024)
    uploadedAt := now
    uploadedBy := "admin"
    isCritical := d.isCritical
    isActive := true
    downloadCount := 0 }

/-- `handleSubmit` of the link variant: validate, then commit with `setDoc`
under `version_${versionCode}`. -/
def handleSubmit (d : LinkDraft) (versions : List (String × Version)) (store : Store)
    (now : Nat) : Store × FormErrorsL :=
  let errs := validateFormL d versions
  if errCountL errs = 0 then
    (setDoc store ("version_" ++ d.versionCode) (submitRecord d now), errs)
  else (store, errs)

/-- What one call of `toggleVersionStatus` produces: the store afterwards,
what (if anything) was passed to `console.error` inside the `catch`, and
whether an error escaped to the caller (the returned promise rejecting). -/
structure ToggleOutcome where
  store : Store
  logged : Option String
  thrown : Bool
deriving Repr, DecidableEq

/-- `toggleVersionStatus(versionId, currentStatus)`: a try/catch around
`updateDoc(doc(db, "app_versions", versionId), { isActive: !currentStatus })`.
A failure of `updateDoc` (missing document) is caught and only logged; no
error ever reaches the caller. -/
def toggleVersionStatus (store : Store) (versionId : String) (currentStatus : Bool) :
    ToggleOutcome :=
  match updateDocIsActive store versionId (!currentStatus) with
  | .ok s => { store := s, logged := none, thrown := false }
  | .error _ => { store := store, logged := some "Error toggling status:", thrown := false }

/-- A state snapshot of the resumable upload task, as seen by the progress
handler. -/
structure TransferSnap where
  bytesTransferred : Nat
  totalBytes : Nat
deriving Repr, DecidableEq

/-- The progress value computed by the upload `state_changed` handler:
`(snapshot.bytesTransferred / snapshot.totalBytes) * 100`. -/
def progressOf (s : TransferSnap) : ℚ :=
  ((s.bytesTransferred : ℚ) / (s.totalBytes : ℚ)) * 100

/-- Scenario A's record, as committed by the link variant. -/
def sampleV18 : Version :=
  { versionName := "1.10", versionCode := some 18,
    downloadUrl := "https://example.com/a.apk", changelog := "fixes",
    fileSize := some 1000000, uploadedAt := 5, uploadedBy := "admin",
    isCritical := true, isActive := true, downloadCount := 0 }

/-- A newer sample record. -/
def sampleV20 : Version := { sampleV18 with versionCode := some 20, versionName := "1.11" }

/-- An older sample record. -/
def sampleV17 : Version := { sampleV18 with versionCode := some 17, versionName := "1.09" }

/-- A three-version catalog in arbitrary arrival order. -/
def sampleStore : Store :=
  [("version_17", sampleV17), ("version_20", sampleV20), ("version_18", sampleV18)]

/-- A link-variant draft reusing versionCode 18 with different fields
(Scenario B). -/
def dupDraft : LinkDraft :=
  { downloadUrl := "https://example.com/b.apk", versionName := "1.11",
    versionCode := "18", changelog := "other", fileSize := "10", isCritical := true }

/-- A well-formed binary-variant draft with a fresh versionCode. -/
def binDraft21 : BinDraft :=
  { selectedFile := some ("app-release.apk", 1000000), versionName := "1.12",
    versionCode := "21", changelog := "fixes", isCritical := true }

/-- A well-formed link-variant draft with a fresh versionCode and a
fractional MB file size. -/
def linkDraft21 : LinkDraft :=
  { downloadUrl := "https://example.com/c.apk", versionName := "1.12",
    versionCode := "21", changelog := "fixes", fileSize := "0.3", isCritical := true }

/-- A binary-variant draft reusing versionCode 18. -/
def binDup18 : BinDraft :=
  { selectedFile := some ("app-release.apk", 2000000), versionName := "1.10b",
    versionCode := "18", changelog := "more fixes", isCritical := false }

/-- A binary-variant draft whose versionCode is the positive non-integer
numeral "1.5" and whose other fields are all valid. -/
def nonIntDraft : BinDraft :=
  { selectedFile := some ("app.apk", 1000), versionName := "1.10",
    versionCode := "1.5", changelog := "fixes", isCritical := true }

/-- Scenario C draft, binary variant: empty changelog, versionCode "0",
every other field valid. -/
def scenarioCB : BinDraft :=
  { selectedFile := some ("app.apk", 1000), versionName := "1.10",
    versionCode := "0", changelog := "", isCritical := false }

/-- Scenario C draft, link variant: empty changelog, versionCode "0",
every other field valid. -/
def scenarioCL : LinkDraft :=
  { downloadUrl := "https://example.com/a.apk", versionName := "1.10",
    versionCode := "0", changelog := "", fileSize := "25.5", isCritical := true }

/-! ## Helper lemmas -/

/-- Normal form of the binary-variant `validateForm`: each field's entry is
determined by its own check alone. -/
theorem validateFormB_eq (d : BinDraft) (vs : List (String × Version)) :
    validateFormB d vs =
      { file := if d.selectedFile.isNone then some "Please select an APK file" else none
        versionName := if jsTrim d.versionName = "" then some "Version name is required" else none
        versionCode :=
          if vs.any (fun v => jsEqNum v.2.versionCode (jsParseInt d.versionCode)) then
            some "Version code already exists"
          else if d.versionCode = "" || jsLe0 d.versionCode then
            some "Valid version code is required"
          else none
        changelog := if jsTrim d.changelog = "" then some "Changelog is required" else none } := by
  unfold validateFormB
  split_ifs <;> rfl

/-- Normal form of the link-variant `validateForm`. -/
theorem validateFormL_eq (d : LinkDraft) (vs : List (String × Version)) :
    validateFormL d vs =
      { downloadUrl :=
          if jsTrim d.downloadUrl = "" then some "Download URL is required"
          else if !jsURLValid d.downloadUrl then some "Invalid URL format"
          else none
        versionName := if jsTrim d.versionName = "" then some "Version name is required" else none
        versionCode :=
          if vs.any (fun v => jsEqNum v.2.versionCode (jsParseInt d.versionCode)) then
            some "Version code already exists"
          else if d.versionCode = "" || jsLe0 d.versionCode then
            some "Valid version code is required"
          else none
        changelog := if jsTrim d.changelog = "" then some "Changelog is required" else none
        fileSize := if d.fileSize = "" || jsLe0 d.fileSize then some "File size is required" else none } := by
  unfold validateFormL
  split_ifs <;> rfl

/-- `Object.keys(...).length === 0` for the binary-variant errors means every
field entry is absent. -/
theorem errCountB_eq_zero (e : FormErrorsB) :
    errCountB e = 0 ↔
      e.file = none ∧ e.versionName = none ∧ e.versionCode = none ∧ e.changelog = none := by
  rcases e with ⟨f, n, c, g⟩
  rcases f <;> rcases n <;> rcases c <;> rcases g <;> simp [errCountB]

/-- `Object.keys(...).length === 0` for the link-variant errors means every
field entry is absent. -/
theorem errCountL_eq_zero (e : FormErrorsL) :
    errCountL e = 0 ↔
      e.downloadUrl = none ∧ e.versionName = none ∧ e.versionCode = none ∧
      e.changelog = none ∧ e.fileSize = none := by
  rcases e with ⟨u, n, c, g, z⟩
  rcases u <;> rcases n <;> rcases c <;> rcases g <;> rcases z <;> simp [errCountL]

/-- The `versionCode` entry of the binary-variant result, as a Bool formula
combining its two checks with the duplicate check. -/
theorem validateFormB_versionCode_isSome (d : BinDraft) (vs : List (String × Version)) :
    (validateFormB d vs).versionCode.isSome =
      (decide (d.versionCode = "") || jsLe0 d.versionCode ||
       vs.any (fun v => jsEqNum v.2.versionCode (jsParseInt d.versionCode))) := by
  rw [validateFormB_eq]
  rcases h1 : vs.any (fun v => jsEqNum v.2.versionCode (jsParseInt d.versionCode)) <;>
    rcases h2 : (decide (d.versionCode = "") || jsLe0 d.versionCode) <;>
      simp [h1, h2]

/-- The `versionCode` entry of the link-variant result, as a Bool formula. -/
theorem validateFormL_versionCode_isSome (d : LinkDraft) (vs : List (String × Version)) :
    (validateFormL d vs).versionCode.isSome =
      (decide (d.versionCode = "") || jsLe0 d.versionCode ||
       vs.any (fun v => jsEqNum v.2.versionCode (jsParseInt d.versionCode))) := by
  rw [validateFormL_eq]
  rcases h1 : vs.any (fun v => jsEqNum v.2.versionCode (jsParseInt d.versionCode)) <;>
    rcases h2 : (decide (d.versionCode = "") || jsLe0 d.versionCode) <;>
      simp [h1, h2]

/-- The `exists`-check of `updateDoc` agrees with `findDoc`. -/
theorem any_key_eq_findDoc (s : Store) (docId : String) :
    s.any (fun p => p.1 == docId) = (findDoc s docId).isSome := by
  induction s with
  | nil => rfl
  | cons hd tl ih =>
      by_cases h : hd.1 == docId <;> simp [findDoc, List.find?_cons, h, List.any_cons] at *
      simpa [findDoc] using ih

/-- `vcLe` is reflexive. -/
theorem vcLe_refl (a : Option Int) : vcLe a a = true := by
  unfold vcLe
  rcases a with _ | n <;> simp

/-- The `isActive` rewrite `updateDoc` applies to the document with the given
id (and to no other). -/
def updActive (docId : String) (b : Bool) (p : String × Version) : String × Version :=
  if p.1 == docId then (p.1, { p.2 with isActive := b }) else p

/-- `updateDocIsActive` succeeds on a present id and maps `updActive` over the
collection. -/
theorem updateDocIsActive_ok {s : Store} {docId : String} {v : Version} (b : Bool)
    (h : findDoc s docId = some v) :
    updateDocIsActive s docId b = .ok (s.map (updActive docId b)) := by
  unfold updateDocIsActive
  rw [if_pos (by rw [any_key_eq_findDoc, h]; rfl)]
  rfl

/-- `findDoc` at a matching head. -/
theorem findDoc_cons_pos {hd : String × Version} {tl : Store} {docId : String}
    (hk : (hd.1 == docId) = true) : findDoc (hd :: tl) docId = some hd.2 := by
  unfold findDoc
  rw [@List.find?_cons_of_pos _ (fun q => q.1 == docId) hd tl hk]
  rfl

/-- `findDoc` skips a non-matching head. -/
theorem findDoc_cons_neg {hd : String × Version} {tl : Store} {docId : String}
    (hk : (hd.1 == docId) = false) : findDoc (hd :: tl) docId = findDoc tl docId := by
  unfold findDoc
  rw [@List.find?_cons_of_neg _ (fun q => q.1 == docId) hd tl (by simp [hk])]

/-- After the update, the targeted document holds the same record with only
`isActive` rewritten. -/
theorem findDoc_updActive_self {s : Store} {docId : String} {v : Version} (b : Bool)
    (h : findDoc s docId = some v) :
    findDoc (s.map (updActive docId b)) docId = some { v with isActive := b } := by
  induction s with
  | nil => simp [findDoc] at h
  | cons hd tl ih =>
      rw [List.map_cons]
      rcases hk : hd.1 == docId with _ | _
      · have hk2 : ((updActive docId b hd).1 == docId) = false := by
          unfold updActive
          rw [if_neg (by simp [hk])]
          exact hk
        rw [findDoc_cons_neg hk] at h
        rw [findDoc_cons_neg hk2]
        exact ih h
      · rw [findDoc_cons_pos hk] at h
        injection h with h2
        have hk2 : ((updActive docId b hd).1 == docId) = true := by
          unfold updActive
          rw [if_pos hk]
          exact hk
        rw [findDoc_cons_pos hk2]
        unfold updActive
        rw [if_pos hk, h2]

/-- The update leaves every other document untouched. -/
theorem findDoc_updActive_other (s : Store) (docId other : String) (b : Bool)
    (h : other ≠ docId) :
    findDoc (s.map (updActive docId b)) other = findDoc s other := by
  induction s with
  | nil => rfl
  | cons hd tl ih =>
      rw [List.map_cons]
      rcases hk : hd.1 == other with _ | _
      · have hk2 : ((updActive docId b hd).1 == other) = false := by
          unfold updActive
          by_cases hbd : (hd.1 == docId) = true
          · rw [if_pos hbd]
            exact hk
          · rw [if_neg hbd]
            exact hk
        rw [findDoc_cons_neg hk2, findDoc_cons_neg hk]
        exact ih
      · have hbd : (hd.1 == docId) = false := by
          rcases hbe : hd.1 == docId with _ | _
          · rfl
          · exact absurd ((beq_iff_eq.mp hk).symm.trans (beq_iff_eq.mp hbe)) h
        have hk2 : ((updActive docId b hd).1 == other) = true := by
          unfold updActive
          rw [if_neg (by simp [hbd])]
          exact hk
        rw [findDoc_cons_pos hk2, findDoc_cons_pos hk]
        unfold updActive
        rw [if_neg (by simp [hbd])]

/-- The update preserves document ids, in order. -/
theorem map_updActive_keys (s : Store) (docId : String) (b : Bool) :
    (s.map (updActive docId b)).map (fun p => p.1) = s.map (fun p => p.1) := by
  induction s with
  | nil => rfl
  | cons hd tl ih =>
      simp only [List.map_cons, ih, List.cons.injEq, and_true]
      unfold updActive
      by_cases hk : hd.1 == docId <;> simp [hk]

/-- The update preserves `versionCode`s, in order. -/
theorem map_updActive_codes (s : Store) (docId : String) (b : Bool) :
    (s.map (updActive docId b)).map (fun p => p.2.versionCode) =
      s.map (fun p => p.2.versionCode) := by
  induction s with
  | nil => rfl
  | cons hd tl ih =>
      simp only [List.map_cons, ih, List.cons.injEq, and_true]
      unfold updActive
      by_cases hk : hd.1 == docId <;> simp [hk]

/-- The update is idempotent on the collection. -/
theorem map_updActive_idem (s : Store) (docId : String) (b : Bool) :
    (s.map (updActive docId b)).map (updActive docId b) = s.map (updActive docId b) := by
  induction s with
  | nil => rfl
  | cons hd tl ih =>
      simp only [List.map_cons, ih, List.cons.injEq, and_true]
      unfold updActive
      by_cases hk : hd.1 == docId <;> simp [hk]

/-- Two documents related by equal id and equal versionCode; the snapshot
comparator cannot tell them apart. -/
def sameKeyCode (p q : String × Version) : Prop :=
  p.1 = q.1 ∧ p.2.versionCode = q.2.versionCode

/-- `orderedInsert` respects `sameKeyCode`-related inputs. -/
theorem forall2_orderedInsert {a b : String × Version} (hab : sameKeyCode a b) :
    ∀ {l l' : List (String × Version)}, List.Forall₂ sameKeyCode l l' →
      List.Forall₂ sameKeyCode (List.orderedInsert snapLE a l)
        (List.orderedInsert snapLE b l') := by
  intro l l' h
  induction h with
  | nil => exact List.Forall₂.cons hab List.Forall₂.nil
  | @cons p q lt lt' hpq hrest ih =>
      simp only [List.orderedInsert]
      have hcond : snapLE a p ↔ snapLE b q := by
        unfold snapLE
        rw [hab.2, hpq.2]
      by_cases hc : snapLE a p
      · rw [if_pos hc, if_pos (hcond.mp hc)]
        exact List.Forall₂.cons hab (List.Forall₂.cons hpq hrest)
      · rw [if_neg hc, if_neg (fun hq => hc (hcond.mpr hq))]
        exact List.Forall₂.cons hpq ih

/-- `insertionSort` (the snapshot query) respects `sameKeyCode`-related
stores: pointwise-equivalent catalogs sort to pointwise-equivalent
snapshots. -/
theorem forall2_insertionSort :
    ∀ {l l' : List (String × Version)}, List.Forall₂ sameKeyCode l l' →
      List.Forall₂ sameKeyCode (List.insertionSort snapLE l)
        (List.insertionSort snapLE l') := by
  intro l l' h
  induction h with
  | nil => exact List.Forall₂.nil
  | cons hpq _ ih =>
      simp only [List.insertionSort]
      exact forall2_orderedInsert hpq ih

/-- On a string whose trimmed form is nonempty, a successful full-string
`ToNumber` coercion agrees with `parseFloat`. -/
theorem jsParseFloat_of_toNumber {s : String} {q : ℚ} (h : jsToNumber s = some q)
    (hne : trimChars s.data ≠ []) : jsParseFloat s = some q := by
  unfold jsToNumber at h
  unfold jsParseFloat
  rcases hc : trimChars s.data with _ | ⟨c, rest⟩
  · exact absurd hc hne
  · rw [hc] at h
    have h' : (match signedNumLead (c :: rest) with
        | some (q, []) => some q
        | _ => none) = some q := h
    rcases hsn : signedNumLead (c :: rest) with _ | ⟨q', rem⟩
    · rw [hsn] at h'
      simp at h'
    · rw [hsn] at h'
      rcases rem with _ | ⟨r, rem2⟩
      · simp at h'
        simp [h']
      · simp at h'

/-- The emitted progress value is never negative. -/
theorem progressOf_nonneg (s : TransferSnap) : 0 ≤ progressOf s := by
  unfold progressOf
  positivity

/-- Within a transfer of total `T > 0`, a snapshot that has transferred at
most `T` bytes yields a progress value of at most 100. -/
theorem progressOf_le_100 {s : TransferSnap} {T : Nat} (hT : 0 < T)
    (h1 : s.totalBytes = T) (h2 : s.bytesTransferred ≤ T) : progressOf s ≤ 100 := by
  unfold progressOf
  rw [h1]
  have hT' : (0 : ℚ) < T := by exact_mod_cast hT
  have hb : (s.bytesTransferred : ℚ) ≤ T := by exact_mod_cast h2
  have hd : (s.bytesTransferred : ℚ) / T ≤ 1 := by
    rw [div_le_one hT']
    exact hb
  nlinarith

/-- Progress values grow with the transferred byte count. -/
theorem progressOf_mono {a b : TransferSnap} {T : Nat} (hT : 0 < T)
    (ha : a.totalBytes = T) (hb : b.totalBytes = T)
    (hab : a.bytesTransferred ≤ b.bytesTransferred) : progressOf a ≤ progressOf b := by
  unfold progressOf
  rw [ha, hb]
  have hT' : (0 : ℚ) < T := by exact_mod_cast hT
  have hab' : (a.bytesTransferred : ℚ) ≤ b.bytesTransferred := by exact_mod_cast hab
  gcongr

/-- A completed snapshot (all bytes transferred) reports progress 100. -/
theorem progressOf_complete {s : TransferSnap} (hT : 0 < s.totalBytes)
    (h : s.bytesTransferred = s.totalBytes) : progressOf s = 100 := by
  unfold progressOf
  rw [h]
  have hT' : (s.totalBytes : ℚ) ≠ 0 := by
    exact_mod_cast Nat.pos_iff_ne_zero.mp hT
  rw [div_self hT']
  norm_num

/-- Chained byte counts give chained progress values. -/
theorem chain_progressOf (T : Nat) (hT : 0 < T) :
    ∀ (l : List TransferSnap), (∀ s ∈ l, s.totalBytes = T) →
      List.Chain' (fun a b => a.bytesTransferred ≤ b.bytesTransferred) l →
      List.Chain' (fun a b => progressOf a ≤ progressOf b) l
  | [], _, _ => List.chain'_nil
  | [_], _, _ => by simp
  | a :: b :: l, hmem, hch => by
      rw [List.chain'_cons] at hch ⊢
      exact ⟨progressOf_mono hT (hmem a (by simp)) (hmem b (by simp)) hch.1,
        chain_progressOf T hT (b :: l)
          (fun s hs => hmem s (List.mem_cons_of_mem _ hs)) hch.2⟩

/-! ## C1 — duplicate versionCode at commit -/

/-- C1 counterexample: the catalog already holds `version_18`, but the
client's `versions` snapshot is stale (empty), so `handleSubmit` of a second
draft with versionCode 18 passes validation (no error entry at all) and its
`setDoc` commit silently overwrites the existing record — the original record
is gone, no AlreadyExists/Conflict is raised. -/
theorem C1_counterexample :
    (findDoc [("version_18", sampleV18)] "version_18").map Version.changelog = some "fixes" ∧
    (handleSubmit dupDraft [] [("version_18", sampleV18)] 9).2 = {} ∧
    ((findDoc (handleSubmit dupDraft [] [("version_18", sampleV18)] 9).1 "version_18").map
      Version.changelog) = some "other" := by
  refine ⟨by decide, by decide, by decide⟩

/-- C1 (amended): duplicate `versionCode` creation is rejected only by the
client-side validation check against the client's `versions` snapshot: when
that snapshot contains a record with the same parsed versionCode, both
variants fail with the `versionCode` error "Version code already exists" and
leave the store unchanged.  The `setDoc` commit itself is an unconditional
insert-or-replace, so with a stale snapshot an existing record is silently
overwritten (see the counterexample). -/
theorem C1_duplicate_rejected (dB : BinDraft) (dL : LinkDraft)
    (vs : List (String × Version)) (store : Store) (url : String) (now : Nat)
    (hB : vs.any (fun v => jsEqNum v.2.versionCode (jsParseInt dB.versionCode)) = true)
    (hL : vs.any (fun v => jsEqNum v.2.versionCode (jsParseInt dL.versionCode)) = true) :
    (handleUpload dB vs store url now).1 = store ∧
    (handleUpload dB vs store url now).2.versionCode = some "Version code already exists" ∧
    (handleSubmit dL vs store now).1 = store ∧
    (handleSubmit dL vs store now).2.versionCode = some "Version code already exists" := by
  have hvB : (validateFormB dB vs).versionCode = some "Version code already exists" := by
    rw [validateFormB_eq]; simp [hB]
  have hnB : errCountB (validateFormB dB vs) ≠ 0 := by
    rw [Ne, errCountB_eq_zero]
    intro h
    rw [hvB] at h
    exact Option.some_ne_none _ h.2.2.1
  have hvL : (validateFormL dL vs).versionCode = some "Version code already exists" := by
    rw [validateFormL_eq]; simp [hL]
  have hnL : errCountL (validateFormL dL vs) ≠ 0 := by
    rw [Ne, errCountL_eq_zero]
    intro h
    rw [hvL] at h
    exact Option.some_ne_none _ h.2.2.1
  have h1 : handleUpload dB vs store url now = (store, validateFormB dB vs) := by
    simp only [handleUpload]
    rw [if_neg hnB]
  have h2 : handleSubmit dL vs store now = (store, validateFormL dL vs) := by
    simp only [handleSubmit]
    rw [if_neg hnL]
  exact ⟨by rw [h1], by rw [h1]; exact hvB, by rw [h2], by rw [h2]; exact hvL⟩

/-- C1 witness: concrete instantiation of the amended claim with a synced
snapshot containing versionCode 18. -/
theorem C1_duplicate_rejected_witness :
    (handleUpload binDup18 [("version_18", sampleV18)] [("version_18", sampleV18)]
        "https://example.com/u.apk" 9).1 = [("version_18", sampleV18)] ∧
    (handleUpload binDup18 [("version_18", sampleV18)] [("version_18", sampleV18)]
        "https://example.com/u.apk" 9).2.versionCode = some "Version code already exists" ∧
    (handleSubmit dupDraft [("version_18", sampleV18)] [("version_18", sampleV18)] 9).1 =
      [("version_18", sampleV18)] ∧
    (handleSubmit dupDraft [("version_18", sampleV18)] [("version_18", sampleV18)] 9).2.versionCode
      = some "Version code already exists" :=
  C1_duplicate_rejected binDup18 dupDraft [("version_18", sampleV18)]
    [("version_18", sampleV18)] "https://example.com/u.apk" 9 (by decide) (by decide)

/-! ## C4 — versionCode validation -/

/-- C4 counterexample: the draft `nonIntDraft` carries the present,
non-integer versionCode "1.5" (numeric value 3/2, not an integer), yet
`validateForm` reports no `versionCode` violation; `parseInt` would commit it
truncated to 1. -/
theorem C4_counterexample :
    (validateFormB nonIntDraft []).versionCode = none ∧
    jsToNumber "1.5" = some (mkRat 3 2) ∧ (mkRat 3 2).den ≠ 1 ∧
    jsParseInt "1.5" = some 1 := by
  decide

/-- C4 (amended): in both variants the `versionCode` entry of the validation
result is present exactly when the field is the empty string, its JS numeric
coercion is ≤ 0 (comparisons against NaN are false), or a record with the
same `parseInt` value already exists in the client snapshot.  In particular a
positive non-integer numeral is accepted without any violation. -/
theorem C4_versionCode_check (dB : BinDraft) (dL : LinkDraft)
    (vs : List (String × Version)) :
    ((validateFormB dB vs).versionCode.isSome = true ↔
      (dB.versionCode = "" ∨ jsLe0 dB.versionCode = true ∨
       vs.any (fun v => jsEqNum v.2.versionCode (jsParseInt dB.versionCode)) = true)) ∧
    ((validateFormL dL vs).versionCode.isSome = true ↔
      (dL.versionCode = "" ∨ jsLe0 dL.versionCode = true ∨
       vs.any (fun v => jsEqNum v.2.versionCode (jsParseInt dL.versionCode)) = true)) := by
  constructor
  · rw [validateFormB_versionCode_isSome]
    simp [or_assoc]
  · rw [validateFormL_versionCode_isSome]
    simp [or_assoc]

/-! ## C3 — validation completeness -/

/-- C3: in both variants `validateForm` reports every violated field at once:
each field's entry in the result is exactly its own check, independent of the
other fields (no short-circuiting).  In particular Scenario C — empty
changelog and versionCode "0", all other fields valid — yields exactly the two
entries `versionCode` and `changelog`. -/
theorem C3_all_violations_reported :
    (∀ (d : BinDraft) (vs : List (String × Version)),
      validateFormB d vs =
        { file := if d.selectedFile.isNone then some "Please select an APK file" else none
          versionName :=
            if jsTrim d.versionName = "" then some "Version name is required" else none
          versionCode :=
            if vs.any (fun v => jsEqNum v.2.versionCode (jsParseInt d.versionCode)) then
              some "Version code already exists"
            else if d.versionCode = "" || jsLe0 d.versionCode then
              some "Valid version code is required"
            else none
          changelog := if jsTrim d.changelog = "" then some "Changelog is required" else none }) ∧
    (∀ (d : LinkDraft) (vs : List (String × Version)),
      validateFormL d vs =
        { downloadUrl :=
            if jsTrim d.downloadUrl = "" then some "Download URL is required"
            else if !jsURLValid d.downloadUrl then some "Invalid URL format"
            else none
          versionName :=
            if jsTrim d.versionName = "" then some "Version name is required" else none
          versionCode :=
            if vs.any (fun v => jsEqNum v.2.versionCode (jsParseInt d.versionCode)) then
              some "Version code already exists"
            else if d.versionCode = "" || jsLe0 d.versionCode then
              some "Valid version code is required"
            else none
          changelog := if jsTrim d.changelog = "" then some "Changelog is required" else none
          fileSize :=
            if d.fileSize = "" || jsLe0 d.fileSize then some "File size is required" else none }) ∧
    validateFormB scenarioCB [] =
      { versionCode := some "Valid version code is required"
        changelog := some "Changelog is required" } ∧
    errCountB (validateFormB scenarioCB []) = 2 ∧
    validateFormL scenarioCL [] =
      { versionCode := some "Valid version code is required"
        changelog := some "Changelog is required" } ∧
    errCountL (validateFormL scenarioCL []) = 2 :=
  ⟨validateFormB_eq, validateFormL_eq, by decide, by decide, by decide, by decide⟩

/-! ## C6 — toggle result visibility -/

/-- C6 counterexample: toggling a versionCode absent from the catalog leaves
the store unchanged and the failure is only logged inside the `catch`
(`console.error`); nothing is thrown and no result reaches the caller, so the
NotFound failure is not a visible result of the call. -/
theorem C6_counterexample :
    findDoc [] "version_18" = none ∧
    toggleVersionStatus [] "version_18" false =
      { store := [], logged := some "Error toggling status:", thrown := false } := by
  decide

/-- C6 (amended): `toggleVersionStatus` never surfaces a result: when the
record exists the update succeeds with nothing logged or thrown, and when it
does not exist the `updateDoc` rejection is swallowed by the `catch` — the
store is unchanged, the error is merely logged, and the caller still observes
no failure. -/
theorem C6_toggle_result (store : Store) (versionId : String) (cur : Bool) :
    ((findDoc store versionId).isSome = true →
      (toggleVersionStatus store versionId cur).logged = none ∧
      (toggleVersionStatus store versionId cur).thrown = false) ∧
    (findDoc store versionId = none →
      (toggleVersionStatus store versionId cur).store = store ∧
      (toggleVersionStatus store versionId cur).logged = some "Error toggling status:" ∧
      (toggleVersionStatus store versionId cur).thrown = false) := by
  unfold toggleVersionStatus updateDocIsActive
  rw [any_key_eq_findDoc]
  constructor
  · intro h
    simp [h]
  · intro h
    simp [h]

/-- C6 witness: the amended claim evaluated on a one-record catalog (record
present) and on the empty catalog (record missing). -/
theorem C6_toggle_result_witness :
    ((toggleVersionStatus [("version_18", sampleV18)] "version_18" true).logged = none ∧
     (toggleVersionStatus [("version_18", sampleV18)] "version_18" true).thrown = false) ∧
    ((toggleVersionStatus [] "version_18" true).store = [] ∧
     (toggleVersionStatus [] "version_18" true).logged = some "Error toggling status:" ∧
     (toggleVersionStatus [] "version_18" true).thrown = false) :=
  ⟨(C6_toggle_result [("version_18", sampleV18)] "version_18" true).1 (by decide),
   (C6_toggle_result [] "version_18" true).2 (by decide)⟩

/-! ## C8 — progress events -/

/-- C8 counterexample: at the completion snapshot (1 of 1 bytes) the handler
computes `(bytesTransferred / totalBytes) * 100 = 100`, not the fraction
`1.0`; the emitted value lies outside `[0,1]`. -/
theorem C8_counterexample :
    progressOf { bytesTransferred := 1, totalBytes := 1 } = 100 ∧
    ¬ progressOf { bytesTransferred := 1, totalBytes := 1 } ≤ 1 := by
  have h : progressOf { bytesTransferred := 1, totalBytes := 1 } = 100 := by
    unfold progressOf
    norm_num
  refine ⟨h, ?_⟩
  rw [h]
  norm_num

/-- C8 (amended): each emitted progress value is the percentage
`(bytesTransferred / totalBytes) * 100` lying in `[0,100]`, successive
progress events are monotonically non-decreasing, and on success (final
snapshot fully transferred) the final progress event equals 100. -/
theorem C8_progress_percent (sns : List TransferSnap) (T : Nat) (hT : 0 < T)
    (hmem : ∀ s ∈ sns, s.totalBytes = T ∧ s.bytesTransferred ≤ T)
    (hmono : List.Chain' (fun a b => a.bytesTransferred ≤ b.bytesTransferred) sns) :
    (∀ p ∈ sns.map progressOf, 0 ≤ p ∧ p ≤ 100) ∧
    List.Chain' (fun p q => p ≤ q) (sns.map progressOf) ∧
    (∀ s, sns.getLast? = some s → s.bytesTransferred = T →
      (sns.map progressOf).getLast? = some 100) := by
  refine ⟨?_, ?_, ?_⟩
  · intro p hp
    rcases List.mem_map.mp hp with ⟨s, hs, rfl⟩
    rcases hmem s hs with ⟨h1, h2⟩
    exact ⟨progressOf_nonneg s, progressOf_le_100 hT h1 h2⟩
  · rw [List.chain'_map]
    exact chain_progressOf T hT sns (fun s hs => (hmem s hs).1) hmono
  · intro s hlast hdone
    have hs : s ∈ sns := by
      rcases List.mem_getLast?_eq_getLast (by simpa using hlast) with ⟨hne, heq⟩
      rw [heq]
      exact List.getLast_mem hne
    have h1 : s.totalBytes = T := (hmem s hs).1
    have : progressOf s = 100 :=
      progressOf_complete (h1 ▸ hT) (by rw [hdone, h1])
    rw [List.getLast?_map, hlast]
    simp [this]

/-- C8 witness: a concrete successful three-event transfer of 4 bytes. -/
theorem C8_progress_percent_witness :
    (∀ p ∈ [(⟨0, 4⟩ : TransferSnap), ⟨2, 4⟩, ⟨4, 4⟩].map progressOf, 0 ≤ p ∧ p ≤ 100) ∧
    List.Chain' (fun p q => p ≤ q)
      ([(⟨0, 4⟩ : TransferSnap), ⟨2, 4⟩, ⟨4, 4⟩].map progressOf) ∧
    (∀ s, [(⟨0, 4⟩ : TransferSnap), ⟨2, 4⟩, ⟨4, 4⟩].getLast? = some s →
      s.bytesTransferred = 4 →
      (([(⟨0, 4⟩ : TransferSnap), ⟨2, 4⟩, ⟨4, 4⟩].map progressOf).getLast? = some 100)) :=
  C8_progress_percent [⟨0, 4⟩, ⟨2, 4⟩, ⟨4, 4⟩] 4 (by decide)
    (by decide) (by simp [List.chain'_cons])

/-! ## C9 — shape of the committed record -/

/-- C9: every admitted draft that passes validation is committed under the
document key `version_${versionCode}` with `uploadedAt` the admission time,
`downloadCount` 0 and `isActive` true, in both variants. -/
theorem C9_committed_record (dB : BinDraft) (dL : LinkDraft)
    (vs vs' : List (String × Version)) (store store' : Store) (url : String)
    (now now' : Nat)
    (hB : errCountB (validateFormB dB vs) = 0)
    (hL : errCountL (validateFormL dL vs') = 0) :
    (∃ rec : Version,
      (handleUpload dB vs store url now).1 = setDoc store ("version_" ++ dB.versionCode) rec ∧
      rec.uploadedAt = now ∧ rec.downloadCount = 0 ∧ rec.isActive = true) ∧
    (∃ rec : Version,
      (handleSubmit dL vs' store' now').1 = setDoc store' ("version_" ++ dL.versionCode) rec ∧
      rec.uploadedAt = now' ∧ rec.downloadCount = 0 ∧ rec.isActive = true) := by
  constructor
  · have hfile : dB.selectedFile.isNone = false := by
      have h := ((errCountB_eq_zero _).mp hB).1
      rw [validateFormB_eq] at h
      rcases hf : dB.selectedFile.isNone with _ | _
      · rfl
      · rw [hf] at h
        simp at h
    rcases ho : dB.selectedFile with _ | f
    · rw [ho] at hfile
      simp at hfile
    · refine ⟨uploadRecord dB f url now, ?_, rfl, rfl, rfl⟩
      simp only [handleUpload, ho]
      rw [if_pos hB]
  · refine ⟨submitRecord dL now', ?_, rfl, rfl, rfl⟩
    simp only [handleSubmit]
    rw [if_pos hL]

/-- C9 witness: concrete fresh drafts in both variants against the empty
catalog. -/
theorem C9_committed_record_witness :
    (∃ rec : Version,
      (handleUpload binDraft21 [] sampleStore "https://example.com/u.apk" 7).1 =
        setDoc sampleStore ("version_" ++ binDraft21.versionCode) rec ∧
      rec.uploadedAt = 7 ∧ rec.downloadCount = 0 ∧ rec.isActive = true) ∧
    (∃ rec : Version,
      (handleSubmit linkDraft21 [] sampleStore 8).1 =
        setDoc sampleStore ("version_" ++ linkDraft21.versionCode) rec ∧
      rec.uploadedAt = 8 ∧ rec.downloadCount = 0 ∧ rec.isActive = true) :=
  C9_committed_record binDraft21 linkDraft21 [] [] sampleStore sampleStore
    "https://example.com/u.apk" 7 8 (by decide) (by decide)

/-! ## C10 — link-variant fileSize conversion -/

/-- C10: for a submitted link-variant draft that passes validation and whose
entered file size is the numeral of the rational `q`, the persisted
`fileSize` equals `parseFloat(fileSize) * 1024 * 1024 = q * 1024 * 1024`,
which is strictly positive; and for the valid entry "0.3" the persisted byte
count `1572864/5` is not an integer. -/
theorem C10_fileSize_conversion :
    (∀ (d : LinkDraft) (vs : List (String × Version)) (store : Store) (now : Nat) (q : ℚ),
      jsToNumber d.fileSize = some q →
      errCountL (validateFormL d vs) = 0 →
      0 < q ∧
      ∃ rec : Version,
        (handleSubmit d vs store now).1 = setDoc store ("version_" ++ d.versionCode) rec ∧
        rec.fileSize = some (q * 1024 * 1024) ∧ 0 < q * 1024 * 1024) ∧
    ((jsParseFloat "0.3").map (fun q => q * 1024 * 1024) = some (mkRat 1572864 5) ∧
     (mkRat 1572864 5).den = 5 ∧ ∀ n : ℤ, mkRat 1572864 5 ≠ (n : ℚ)) := by
  constructor
  · intro d vs store now q hq hv
    have hfs : (decide (d.fileSize = "") || jsLe0 d.fileSize) = false := by
      have h := ((errCountL_eq_zero _).mp hv).2.2.2.2
      rw [validateFormL_eq] at h
      rcases hf : (decide (d.fileSize = "") || jsLe0 d.fileSize) with _ | _
      · rfl
      · rw [hf] at h
        simp at h
    have hle : jsLe0 d.fileSize = false := by
      rcases Bool.or_eq_false_iff.mp hfs with ⟨_, h2⟩
      exact h2
    have hqpos : 0 < q := by
      unfold jsLe0 at hle
      rw [hq] at hle
      simp at hle
      exact hle
    have hne : trimChars d.fileSize.data ≠ [] := by
      intro hnil
      have : jsToNumber d.fileSize = some 0 := by
        unfold jsToNumber
        rw [hnil]
      rw [hq] at this
      simp at this
      rw [this] at hqpos
      exact lt_irrefl 0 hqpos
    have hpf : jsParseFloat d.fileSize = some q := jsParseFloat_of_toNumber hq hne
    refine ⟨hqpos, submitRecord d now, ?_, ?_, ?_⟩
    · simp only [handleSubmit]
      rw [if_pos hv]
    · simp [submitRecord, hpf]
    · positivity
  · refine ⟨?_, by decide, ?_⟩
    · have h3 : jsParseFloat "0.3" = some (mkRat 3 10) := by decide
      rw [h3]
      rw [show Option.map (fun q => q * 1024 * 1024) (some (mkRat 3 10)) =
          some (mkRat 3 10 * 1024 * 1024) from rfl]
      congr 1
      rw [Rat.mkRat_eq_div, Rat.mkRat_eq_div]
      norm_num
    · intro n h
      have hd := congrArg Rat.den h
      rw [Rat.den_intCast] at hd
      have h5 : (mkRat 1572864 5).den = 5 := by decide
      rw [h5] at hd
      exact absurd hd (by norm_num)

/-- C10 witness: the draft `linkDraft21` with entered size "0.3" MB. -/
theorem C10_fileSize_conversion_witness :
    0 < mkRat 3 10 ∧
    ∃ rec : Version,
      (handleSubmit linkDraft21 [] [] 3).1 =
        setDoc [] ("version_" ++ linkDraft21.versionCode) rec ∧
      rec.fileSize = some (mkRat 3 10 * 1024 * 1024) ∧ 0 < mkRat 3 10 * 1024 * 1024 :=
  C10_fileSize_conversion.1 linkDraft21 [] [] 3 (mkRat 3 10) (by decide) (by decide)

/-! ## C2 — snapshot ordering -/

/-- C2: the snapshot listener's query orders the catalog strictly descending
by `versionCode` (for any catalog of numeric, pairwise-distinct codes — the
catalog invariant), the snapshot is a permutation of the stored documents,
and the first snapshot element (`latestVersion = versions[0]`) carries the
maximum `versionCode`, irrespective of `isActive`. -/
theorem C2_snapshot_sorted (s : Store)
    (hnum : ∀ p ∈ s, p.2.versionCode.isSome = true)
    (hdist : s.Pairwise (fun p q => p.2.versionCode ≠ q.2.versionCode)) :
    (snapshotQuery s).Perm s ∧
    (snapshotQuery s).Pairwise
      (fun p q => ∃ m n : ℤ, p.2.versionCode = some m ∧ q.2.versionCode = some n ∧ n < m) ∧
    (∀ hd, (snapshotQuery s).head? = some hd →
      ∀ p ∈ s, vcLe p.2.versionCode hd.2.versionCode = true) := by
  have hperm : (snapshotQuery s).Perm s := List.perm_insertionSort snapLE s
  have hs : (snapshotQuery s).Pairwise snapLE := List.sorted_insertionSort snapLE s
  have hne : (snapshotQuery s).Pairwise (fun p q => p.2.versionCode ≠ q.2.versionCode) :=
    (hperm.pairwise_iff (fun h => Ne.symm h)).mpr hdist
  refine ⟨hperm, ?_, ?_⟩
  · refine (hs.and hne).imp_of_mem ?_
    intro a b ha hb hab
    have hsa : a.2.versionCode.isSome = true := hnum a (hperm.mem_iff.mp ha)
    have hsb : b.2.versionCode.isSome = true := hnum b (hperm.mem_iff.mp hb)
    rcases hab with ⟨h1, h2⟩
    unfold snapLE at h1
    rcases ea : a.2.versionCode with _ | m
    · rw [ea] at hsa
      cases hsa
    rcases eb : b.2.versionCode with _ | n
    · rw [eb] at hsb
      cases hsb
    refine ⟨m, n, rfl, rfl, ?_⟩
    rw [ea, eb] at h1 h2
    unfold vcLe at h1
    simp at h1
    rcases lt_or_eq_of_le h1 with hlt | heq
    · exact hlt
    · exact absurd (by rw [heq]) h2
  · intro hd hhd p hp
    have hpin : p ∈ snapshotQuery s := hperm.mem_iff.mpr hp
    rcases hq : snapshotQuery s with _ | ⟨x, t⟩
    · rw [hq] at hhd
      cases hhd
    · rw [hq] at hhd hpin hs
      injection hhd with hx
      subst hx
      rcases List.mem_cons.mp hpin with rfl | hin
      · exact vcLe_refl _
      · exact List.rel_of_pairwise_cons hs hin

/-- C2 witness: the three-version catalog `sampleStore`. -/
theorem C2_snapshot_sorted_witness :
    (snapshotQuery sampleStore).Perm sampleStore ∧
    (snapshotQuery sampleStore).Pairwise
      (fun p q => ∃ m n : ℤ, p.2.versionCode = some m ∧ q.2.versionCode = some n ∧ n < m) ∧
    (∀ hd, (snapshotQuery sampleStore).head? = some hd →
      ∀ p ∈ sampleStore, vcLe p.2.versionCode hd.2.versionCode = true) :=
  C2_snapshot_sorted sampleStore (by decide)
    (by simp [sampleStore, List.pairwise_cons]; decide)

/-! ## C5 — toggle frame property -/

/-- C5: toggling an existing record rewrites only that record's `isActive`
field: the record keeps every other field, every other document is unchanged,
ids and `versionCode`s keep their stored order, and the snapshot query sorts
the updated catalog into pointwise the same (id, versionCode) sequence. -/
theorem C5_toggle_frame (store : Store) (versionId : String) (cur : Bool) (v : Version)
    (h : findDoc store versionId = some v) :
    (toggleVersionStatus store versionId cur).logged = none ∧
    (toggleVersionStatus store versionId cur).thrown = false ∧
    findDoc (toggleVersionStatus store versionId cur).store versionId =
      some { v with isActive := !cur } ∧
    (∀ other, other ≠ versionId →
      findDoc (toggleVersionStatus store versionId cur).store other = findDoc store other) ∧
    (toggleVersionStatus store versionId cur).store.map (fun p => p.1) =
      store.map (fun p => p.1) ∧
    (toggleVersionStatus store versionId cur).store.map (fun p => p.2.versionCode) =
      store.map (fun p => p.2.versionCode) ∧
    List.Forall₂ sameKeyCode
      (snapshotQuery (toggleVersionStatus store versionId cur).store)
      (snapshotQuery store) := by
  have htog : toggleVersionStatus store versionId cur =
      { store := store.map (updActive versionId (!cur)), logged := none, thrown := false } := by
    unfold toggleVersionStatus
    rw [updateDocIsActive_ok (!cur) h]
  rw [htog]
  refine ⟨rfl, rfl, findDoc_updActive_self (!cur) h,
    fun other ho => findDoc_updActive_other store versionId other (!cur) ho,
    map_updActive_keys store versionId (!cur),
    map_updActive_codes store versionId (!cur), ?_⟩
  apply forall2_insertionSort
  rw [List.forall₂_map_left_iff]
  rw [List.forall₂_same]
  intro p _
  unfold updActive sameKeyCode
  by_cases hk : (p.1 == versionId) = true
  · rw [if_pos hk]
    exact ⟨rfl, rfl⟩
  · rw [if_neg hk]
    exact ⟨rfl, rfl⟩

/-- C5 witness: toggling `version_18` off in the three-version catalog. -/
theorem C5_toggle_frame_witness :
    (toggleVersionStatus sampleStore "version_18" true).logged = none ∧
    (toggleVersionStatus sampleStore "version_18" true).thrown = false ∧
    findDoc (toggleVersionStatus sampleStore "version_18" true).store "version_18" =
      some { sampleV18 with isActive := !true } ∧
    (∀ other, other ≠ "version_18" →
      findDoc (toggleVersionStatus sampleStore "version_18" true).store other =
        findDoc sampleStore other) ∧
    (toggleVersionStatus sampleStore "version_18" true).store.map (fun p => p.1) =
      sampleStore.map (fun p => p.1) ∧
    (toggleVersionStatus sampleStore "version_18" true).store.map (fun p => p.2.versionCode) =
      sampleStore.map (fun p => p.2.versionCode) ∧
    List.Forall₂ sameKeyCode
      (snapshotQuery (toggleVersionStatus sampleStore "version_18" true).store)
      (snapshotQuery sampleStore) :=
  C5_toggle_frame sampleStore "version_18" true sampleV18 rfl

/-! ## C7 — idempotent toggle -/

/-- C7: applying the toggle twice with the same `currentStatus` argument
(`setActive(code, value)` twice) leaves the catalog exactly as after one
application, neither call logs or surfaces an error, and the final record
holds `isActive = !currentStatus`. -/
theorem C7_toggle_idempotent (store : Store) (versionId : String) (cur : Bool) (v : Version)
    (h : findDoc store versionId = some v) :
    (toggleVersionStatus (toggleVersionStatus store versionId cur).store versionId cur).store =
      (toggleVersionStatus store versionId cur).store ∧
    (toggleVersionStatus store versionId cur).logged = none ∧
    (toggleVersionStatus store versionId cur).thrown = false ∧
    (toggleVersionStatus (toggleVersionStatus store versionId cur).store versionId cur).logged
      = none ∧
    (toggleVersionStatus (toggleVersionStatus store versionId cur).store versionId cur).thrown
      = false ∧
    findDoc (toggleVersionStatus (toggleVersionStatus store versionId cur).store
        versionId cur).store versionId = some { v with isActive := !cur } := by
  have htog1 : toggleVersionStatus store versionId cur =
      { store := store.map (updActive versionId (!cur)), logged := none, thrown := false } := by
    unfold toggleVersionStatus
    rw [updateDocIsActive_ok (!cur) h]
  have h2 : findDoc (store.map (updActive versionId (!cur))) versionId =
      some { v with isActive := !cur } := findDoc_updActive_self (!cur) h
  have htog2 : toggleVersionStatus (store.map (updActive versionId (!cur))) versionId cur =
      { store := (store.map (updActive versionId (!cur))).map (updActive versionId (!cur)),
        logged := none, thrown := false } := by
    unfold toggleVersionStatus
    rw [updateDocIsActive_ok (!cur) h2]
  rw [htog1]
  rw [htog2]
  refine ⟨map_updActive_idem store versionId (!cur), rfl, rfl, rfl, rfl, ?_⟩
  rw [map_updActive_idem store versionId (!cur)]
  exact h2

/-- C7 witness: Scenario E — `setActive(18, false)` twice (toggle with
`currentStatus = true` twice) ends with `isActive = false` and no error on
either call. -/
theorem C7_toggle_idempotent_witness :
    (toggleVersionStatus (toggleVersionStatus sampleStore "version_18" true).store
        "version_18" true).store =
      (toggleVersionStatus sampleStore "version_18" true).store ∧
    (toggleVersionStatus sampleStore "version_18" true).logged = none ∧
    (toggleVersionStatus sampleStore "version_18" true).thrown = false ∧
    (toggleVersionStatus (toggleVersionStatus sampleStore "version_18" true).store
        "version_18" true).logged = none ∧
    (toggleVersionStatus (toggleVersionStatus sampleStore "version_18" true).store
        "version_18" true).thrown = false ∧
    findDoc (toggleVersionStatus (toggleVersionStatus sampleStore "version_18" true).store
        "version_18" true).store "version_18" = some { sampleV18 with isActive := !true } :=
  C7_toggle_idempotent sampleStore "version_18" true sampleV18 rfl

end UAsms
